import Mathlib

/-!
Shallow embedding of the PulmoScan diagnosis pipeline: the Express backend
(diagnose, history, analytics and delete handlers over the Mongo scan-record
store) and the client-side processing workflow (the DiagnosisContext session
state and the ProcessingAnimation progress machine).  Confidences and
probabilities are rationals, timestamps and sizes are naturals.  Fallible
JSON fields are Option-valued.
-/

namespace PulmoScan

/-- Image upload metadata as multer hands it to the diagnose handler. -/
structure ImageFile where
  originalname : String
  mimetype : String
  size : ℕ
deriving Repr, DecidableEq

/-- Parsed JSON body returned by the Python inference API, as consumed by the
Node backend.  Option-valued fields model JSON fields that may be absent. -/
structure AiResult where
  predicted_class : String
  confidence : ℚ
  severity : Option String
  probabilities : List (String × ℚ)
  affected_regions : List String
  recommendations : List String
  demo_mode : Option Bool
deriving Repr, DecidableEq

/-- Result subdocument of a persisted scan record (patientSchema.result). -/
structure ScanResult where
  predictedClass : String
  confidence : ℚ
  severity : Option String
  probabilities : List (String × ℚ)
  affectedRegions : List String
  recommendations : List String
  demoMode : Option Bool
deriving Repr, DecidableEq

/-- Image metadata subdocument; the field name sizeByes is the sources own
spelling. -/
structure ImageMeta where
  originalName : String
  mimetype : String
  sizeByes : ℕ
deriving Repr, DecidableEq

/-- A persisted scan record.  The patient subdocument is carried as its raw
JSON text, which none of the handlers inspect. -/
structure ScanRecord where
  scanId : String
  patient : String
  result : ScanResult
  imageMeta : ImageMeta
  createdAt : ℕ
deriving Repr, DecidableEq

/-- JSON body returned to the frontend by POST /api/diagnose on success. -/
structure DiagnosisResponse where
  scanId : String
  predicted_class : String
  confidence : ℚ
  severity : String
  probabilities : List (String × ℚ)
  affected_regions : List String
  recommendations : List String
  demo_mode : Bool
  created_at : ℕ
deriving Repr, DecidableEq

/-- Body of a diagnose reply: success payload or an error message. -/
inductive DiagnoseBody where
  | success (resp : DiagnosisResponse)
  | failure (msg : String)
deriving Repr, DecidableEq

/-- Observable outcome of one POST /api/diagnose request: HTTP status, body,
the store after the request, the log lines written by the handler, and
whether the Python API was called. -/
structure DiagnoseOutcome where
  status : ℕ
  body : DiagnoseBody
  store : List ScanRecord
  log : List String
  upstreamCalled : Bool
deriving Repr, DecidableEq

/-- Multipart request to POST /api/diagnose.  The patientData field is none
when absent, some none when present but not valid JSON, and some (some p)
when it parses, p standing for the parsed object. -/
structure DiagnoseRequest where
  file : Option ImageFile
  patientData : Option (Option String)
deriving Repr, DecidableEq

def msgImageRequired : String := "Image file is required (field name: image)"

def msgBadPatientData : String := "patientData must be valid JSON"

def msgUpstreamDown : String := "AI inference service is unavailable. Please ensure the Python API is running."

def msgPersistFailed : String := "[DB] Failed to persist scan record"

def msgSaved : String := "[DB] Saved scan "

/-- The patient object when the patientData field is absent (source keeps
an empty object). -/
def emptyPatientJson : String := "\x7b\x7d"

/-- Severity fallback table of the backend (source name: _inferSeverity).
A falsy class (empty string, standing for a missing one) maps to Low. -/
def inferSeverity (cls : String) : String :=
  if cls = "" ∨ cls = "Normal" then "Low"
  else if cls = "Tuberculosis" ∨ cls = "COVID-19" then "High"
  else "Medium"

/-- JavaScript or-else on an optional string field: an absent or empty
string falls through to the default. -/
def jsOr (o : Option String) (d : String) : String :=
  match o with
  | none => d
  | some s => if s = "" then d else s

/-- Response body built at the end of the diagnose handler. -/
def mkResponse (ai : AiResult) (scanId : String) (now : ℕ) : DiagnosisResponse where
  scanId := scanId
  predicted_class := ai.predicted_class
  confidence := ai.confidence
  severity := jsOr ai.severity (inferSeverity ai.predicted_class)
  probabilities := ai.probabilities
  affected_regions := ai.affected_regions
  recommendations := ai.recommendations
  demo_mode := ai.demo_mode.getD false
  created_at := now

/-- The ScanRecord document assembled for ScanRecord.create: every result
field is copied verbatim from the upstream body, severity included. -/
def mkRecord (ai : AiResult) (patient : String) (file : ImageFile) (scanId : String)
    (now : ℕ) : ScanRecord where
  scanId := scanId
  patient := patient
  result :=
    { predictedClass := ai.predicted_class
      confidence := ai.confidence
      severity := ai.severity
      probabilities := ai.probabilities
      affectedRegions := ai.affected_regions
      recommendations := ai.recommendations
      demoMode := ai.demo_mode }
  imageMeta :=
    { originalName := file.originalname
      mimetype := file.mimetype
      sizeByes := file.size }
  createdAt := now

/-- Diagnose steps after input validation: one upstream call, best-effort
persistence whose outcome is persistOk, then the success response.  A
persistence failure is only logged; the status and body do not depend on
it. -/
def diagnoseCore (file : ImageFile) (patient : String) (upstream : Except String AiResult)
    (persistOk : Bool) (newId : String) (now : ℕ) (store : List ScanRecord) : DiagnoseOutcome :=
  match upstream with
  | Except.error detail => ⟨502, DiagnoseBody.failure (msgUpstreamDown ++ detail), store, [], true⟩
  | Except.ok ai =>
      ⟨200, DiagnoseBody.success (mkResponse ai newId now),
        if persistOk then store ++ [mkRecord ai patient file newId now] else store,
        if persistOk then [msgSaved ++ newId] else [msgPersistFailed],
        true⟩

/-- POST /api/diagnose handler: reject a missing image, reject malformed
patientData, then run the core pipeline. -/
def diagnoseHandler (req : DiagnoseRequest) (upstream : Except String AiResult)
    (persistOk : Bool) (newId : String) (now : ℕ) (store : List ScanRecord) : DiagnoseOutcome :=
  match req.file with
  | none => ⟨400, DiagnoseBody.failure msgImageRequired, store, [], false⟩
  | some file =>
      match req.patientData with
      | some none => ⟨400, DiagnoseBody.failure msgBadPatientData, store, [], false⟩
      | some (some p) => diagnoseCore file p upstream persistOk newId now store
      | none => diagnoseCore file emptyPatientJson upstream persistOk newId now store

/-- Query parameters of GET /api/history, numbers already parsed. -/
structure HistoryQuery where
  page : Option ℕ
  limit : Option ℕ
  cls : Option String
  dateFrom : Option ℕ
  dateTo : Option ℕ
deriving Repr, DecidableEq

/-- The Mongo filter built by the history handler: optional class equality
and an optional creation-time range. -/
def matchesFilter (q : HistoryQuery) (r : ScanRecord) : Bool :=
  (match q.cls with
   | none => true
   | some c => r.result.predictedClass == c) &&
  (match q.dateFrom with
   | none => true
   | some d => decide (d ≤ r.createdAt)) &&
  (match q.dateTo with
   | none => true
   | some d => decide (r.createdAt ≤ d))

/-- Newest-first ordering used by the sort on createdAt descending. -/
def newerEq (a b : ScanRecord) : Prop := b.createdAt ≤ a.createdAt

instance : DecidableRel newerEq := fun a b => Nat.decLe b.createdAt a.createdAt

instance : IsTotal ScanRecord newerEq := ⟨fun a b => Nat.le_total b.createdAt a.createdAt⟩

instance : IsTrans ScanRecord newerEq := ⟨fun _ _ _ h1 h2 => le_trans h2 h1⟩

/-- JSON body of a GET /api/history reply. -/
structure HistoryResult where
  records : List ScanRecord
  total : ℕ
  page : ℕ
  limit : ℕ
  pages : ℕ
deriving Repr, DecidableEq

/-- GET /api/history handler: clamp page below by 1 and limit above by 100,
filter, sort newest first, paginate by skip and limit, and report the
ceiling of total over limit as the page count.  The executable model picks
insertionSort, which is one valid result of the database sort; the source
guarantees no particular order among equal createdAt values, and that
weaker contract is captured separately by mongoSortResult. -/
def historyHandler (q : HistoryQuery) (store : List ScanRecord) : HistoryResult where
  records := (((store.filter (matchesFilter q)).insertionSort newerEq).drop
      ((max 1 (q.page.getD 1) - 1) * min 100 (q.limit.getD 20))).take (min 100 (q.limit.getD 20))
  total := (store.filter (matchesFilter q)).length
  page := max 1 (q.page.getD 1)
  limit := min 100 (q.limit.getD 20)
  pages := ((store.filter (matchesFilter q)).length + min 100 (q.limit.getD 20) - 1)
      / min 100 (q.limit.getD 20)

/-- One row of the analytics class distribution. -/
structure ClassGroup where
  cls : String
  count : ℕ
  avgConfidence : ℚ
deriving Repr, DecidableEq

/-- Descending-count ordering used by the sort on count descending. -/
def moreFrequent (a b : ClassGroup) : Prop := b.count ≤ a.count

instance : DecidableRel moreFrequent := fun a b => Nat.decLe b.count a.count

instance : IsTotal ClassGroup moreFrequent := ⟨fun a b => Nat.le_total b.count a.count⟩

instance : IsTrans ClassGroup moreFrequent := ⟨fun _ _ _ h1 h2 => le_trans h2 h1⟩

/-- The aggregation pipeline of GET /api/analytics: group records by
predicted class with a count and a mean confidence per group, then order by
descending count. -/
def aggregateByClass (store : List ScanRecord) : List ClassGroup :=
  ((store.map (fun r => r.result.predictedClass)).dedup.map (fun c =>
    { cls := c
      count := (store.filter (fun r => r.result.predictedClass == c)).length
      avgConfidence :=
        ((store.filter (fun r => r.result.predictedClass == c)).map
            (fun r => r.result.confidence)).sum
          / ((store.filter (fun r => r.result.predictedClass == c)).length : ℚ)
    })).insertionSort moreFrequent

/-- Observable outcome of DELETE /api/history/:scanId. -/
structure DeleteOutcome where
  status : ℕ
  success : Bool
  store : List ScanRecord
deriving Repr, DecidableEq

/-- DELETE /api/history/:scanId handler: deleteOne by scanId removes the
first matching document, and the reply is success true unconditionally,
whether or not anything matched. -/
def deleteHandler (scanId : String) (store : List ScanRecord) : DeleteOutcome :=
  ⟨200, true, store.eraseP (fun r => r.scanId == scanId)⟩

/-- Running-maximum scan over an association list: the champion is replaced
only by a strictly larger value, so the first entry attaining the maximum
wins ties. -/
def argmaxAux (c : String) (v : ℚ) : List (String × ℚ) → String × ℚ
  | [] => (c, v)
  | (c2, v2) :: rest => if v < v2 then argmaxAux c2 v2 rest else argmaxAux c v rest

/-- First entry of maximal value in an association list; the empty list
gives a dummy entry, never used under the nonemptiness hypotheses below. -/
def argmaxEntry (probs : List (String × ℚ)) : String × ℚ :=
  match probs with
  | [] => ("", 0)
  | (c, v) :: rest => argmaxAux c v rest

/-- Modelled from the spec: the Python inference service (the Inference
Gateway) is not among the sources; per the spec its predicted class is a
member of the probability distribution key set carrying the maximum value,
ties broken by the first class in canonical ordering (here: list order of
the distribution), and it may omit severity. -/
def gatewayResult (probs : List (String × ℚ)) (confidence : ℚ) (severity : Option String)
    (regions recs : List String) (demo : Bool) : AiResult where
  predicted_class := (argmaxEntry probs).1
  confidence := confidence
  severity := severity
  probabilities := probs
  affected_regions := regions
  recommendations := recs
  demo_mode := some demo

/-- Client-side result as mapped from the API response in the
ProcessingAnimation completion closure. -/
structure ClientResult where
  scanId : String
  disease : String
  confidence : ℚ
  severity : String
  affectedRegions : List String
  recommendations : List String
  probabilities : List (String × ℚ)
  heatmapUrl : String
  demoMode : Bool
deriving Repr, DecidableEq

/-- Client routes relevant to the diagnosis workflow. -/
inductive Route where
  | patientDetails
  | uploadScan
  | processing
  | results
deriving Repr, DecidableEq

/-- Session state owned by DiagnosisContext plus the current route. -/
structure ClientSession where
  patientData : Option String
  scanData : Option String
  diagnosisResult : Option ClientResult
  route : Route
deriving Repr, DecidableEq

/-- resetDiagnosis of DiagnosisContext: clears the three session fields. -/
def resetDiagnosis (s : ClientSession) : ClientSession :=
  { s with patientData := none, scanData := none, diagnosisResult := none }

/-- Completion closure of ProcessingAnimation when the submitDiagnosis
promise resolves: it stores the result in the context and navigates to the
results route, without consulting any session-generation guard. -/
def completeDiagnosis (r : ClientResult) (s : ClientSession) : ClientSession :=
  { s with diagnosisResult := some r, route := Route.results }

/-- Total cosmetic duration of the four processing steps, in milliseconds. -/
def totalDuration : ℕ := 1200 + 2200 + 1200 + 800

/-- State of the processing screen: elapsed cosmetic time, displayed
progress, whether the real call has settled, and whether it succeeded. -/
structure ProcState where
  elapsed : ℕ
  progress : ℚ
  settled : Bool
  succeeded : Bool
deriving Repr, DecidableEq

/-- Events of the processing screen: an interval tick, or the settlement of
the single in-flight orchestration call. -/
inductive ProcEvent where
  | tick
  | resolveOk
  | resolveErr
deriving Repr, DecidableEq

def initProc : ProcState := ⟨0, 0, false, false⟩

/-- One step of the processing screen.  A tick advances the cosmetic timer
by 50 ms and caps the displayed progress at 90; a settlement clears the
interval, and only a successful one forces progress to 100. -/
def stepProc (s : ProcState) : ProcEvent → ProcState
  | ProcEvent.tick =>
      if s.settled then s
      else
        { s with
          elapsed := s.elapsed + 50
          progress := min (((s.elapsed + 50 : ℕ) : ℚ) / (totalDuration : ℚ) * 90) 90 }
  | ProcEvent.resolveOk =>
      if s.settled then s
      else { s with settled := true, succeeded := true, progress := 100 }
  | ProcEvent.resolveErr =>
      if s.settled then s else { s with settled := true }

/-- Run the processing screen on a sequence of events from its initial
state. -/
def runProc (evs : List ProcEvent) : ProcState := evs.foldl stepProc initProc

/-- Canonical closed set of disease labels of the data model. -/
def canonicalClasses : List String :=
  ["Normal", "Pneumonia", "COVID-19", "Lung Opacity", "Tuberculosis"]

/-- Concrete fixtures used by witnesses. -/
def demoAi : AiResult where
  predicted_class := "Pneumonia"
  confidence := 9/10
  severity := none
  probabilities := [("Normal", 1/10), ("Pneumonia", 9/10)]
  affected_regions := []
  recommendations := ["Consult a physician"]
  demo_mode := some false

def demoFile : ImageFile := ⟨"xray.png", "image/png", 1000⟩

def demoId : String := "scan-1"

def ghostId : String := "ghost"

/-- A store record with creation time i, used by concrete scenarios. -/
def demoRecord (i : ℕ) : ScanRecord where
  scanId := "r" ++ toString i
  patient := ""
  result :=
    { predictedClass := "Normal"
      confidence := 1
      severity := none
      probabilities := []
      affectedRegions := []
      recommendations := []
      demoMode := some false }
  imageMeta := { originalName := "scan.png", mimetype := "image/png", sizeByes := 1 }
  createdAt := i

/-- Twenty-five records inserted oldest first, creation times 1 to 25. -/
def demoStore : List ScanRecord := (List.range 25).map (fun i => demoRecord (i + 1))

/-- A stale result produced by a delayed orchestration call. -/
def staleResult : ClientResult where
  scanId := "stale"
  disease := "Pneumonia"
  confidence := 9/10
  severity := "Medium"
  affectedRegions := []
  recommendations := []
  probabilities := []
  heatmapUrl := ""
  demoMode := false

/-- A session sitting in the Processing step with its data present. -/
def processingSession : ClientSession where
  patientData := some ("alice")
  scanData := some ("scan")
  diagnosisResult := none
  route := Route.processing

/-- Contract of the database sort on createdAt descending: a valid result
is any permutation of the input that is sorted newest first.  MongoDB
guarantees no particular order among documents with equal createdAt values
and the handler supplies no unique tie-break key, so every such permutation
is a possible reply. -/
def mongoSortResult (input output : List ScanRecord) : Prop :=
  output.Perm input ∧ List.Sorted newerEq output

/-- Strictly-newer ordering on records. -/
def strictNewer (a b : ScanRecord) : Prop := b.createdAt < a.createdAt

instance : IsAntisymm ScanRecord strictNewer :=
  ⟨fun _ _ h1 h2 => absurd (lt_trans h1 h2) (lt_irrefl _)⟩

/-- Two distinct records sharing one creation timestamp, inserted in the
order tieA then tieB. -/
def tieA : ScanRecord := { demoRecord 1 with createdAt := 7 }

def tieB : ScanRecord := { demoRecord 2 with createdAt := 7 }

/-- A concrete probability distribution in canonical ordering. -/
def demoProbs : List (String × ℚ) :=
  [("Normal", 1/4), ("Pneumonia", 1/2), ("COVID-19", 1/4)]

/-- Invariant of the processing screen: success only happens at settlement,
an unsettled or failed run shows at most 90, and 100 is shown only after a
successful settlement. -/
def procInv (s : ProcState) : Prop :=
  (s.succeeded = true → s.settled = true) ∧
  (s.succeeded = false → s.progress ≤ 90) ∧
  (s.progress = 100 → s.succeeded = true)

/-- C3: when the upstream inference succeeds but persisting the ScanRecord
fails, the handler still returns the 200 success response, with the
generated scanId and timestamp; the store is unchanged, the failure appears
only in the log, and the body is identical to the one of a run whose
persistence succeeded. -/
theorem C3_persist_failure_not_surfaced (file : ImageFile) (pd : Option (Option String))
    (ai : AiResult) (newId : String) (now : ℕ) (store : List ScanRecord)
    (hpd : pd ≠ some none) :
    (diagnoseHandler ⟨some file, pd⟩ (Except.ok ai) false newId now store).status = 200 ∧
    (diagnoseHandler ⟨some file, pd⟩ (Except.ok ai) false newId now store).body
        = DiagnoseBody.success (mkResponse ai newId now) ∧
    (mkResponse ai newId now).scanId = newId ∧
    (mkResponse ai newId now).created_at = now ∧
    (diagnoseHandler ⟨some file, pd⟩ (Except.ok ai) false newId now store).store = store ∧
    (diagnoseHandler ⟨some file, pd⟩ (Except.ok ai) false newId now store).log
        = [msgPersistFailed] ∧
    (diagnoseHandler ⟨some file, pd⟩ (Except.ok ai) false newId now store).body
        = (diagnoseHandler ⟨some file, pd⟩ (Except.ok ai) true newId now store).body := by
  match pd with
  | none => exact ⟨rfl, rfl, rfl, rfl, rfl, rfl, rfl⟩
  | some none => exact absurd rfl hpd
  | some (some p) => exact ⟨rfl, rfl, rfl, rfl, rfl, rfl, rfl⟩

/-- Witness for C3 at a concrete request. -/
theorem C3_persist_failure_not_surfaced_witness :
    (none : Option (Option String)) ≠ some none ∧
    (diagnoseHandler ⟨some demoFile, none⟩ (Except.ok demoAi) false demoId 5 []).status = 200 ∧
    (diagnoseHandler ⟨some demoFile, none⟩ (Except.ok demoAi) false demoId 5 []).body
        = DiagnoseBody.success (mkResponse demoAi demoId 5) ∧
    (mkResponse demoAi demoId 5).scanId = demoId ∧
    (mkResponse demoAi demoId 5).created_at = 5 ∧
    (diagnoseHandler ⟨some demoFile, none⟩ (Except.ok demoAi) false demoId 5 []).store = [] ∧
    (diagnoseHandler ⟨some demoFile, none⟩ (Except.ok demoAi) false demoId 5 []).log
        = [msgPersistFailed] ∧
    (diagnoseHandler ⟨some demoFile, none⟩ (Except.ok demoAi) false demoId 5 []).body
        = (diagnoseHandler ⟨some demoFile, none⟩ (Except.ok demoAi) true demoId 5 []).body := by
  refine ⟨by decide, ?_⟩
  have h := C3_persist_failure_not_surfaced demoFile none demoAi demoId 5 [] (by decide)
  exact ⟨h.1, h.2.1, h.2.2.1, h.2.2.2.1, h.2.2.2.2.1, h.2.2.2.2.2.1, h.2.2.2.2.2.2⟩

/-- C4: a diagnose call with no image is rejected with 400 before any
upstream call is made and leaves the store unchanged, and a diagnose call
whose upstream inference fails is rejected with 502 and also leaves the
store unchanged. -/
theorem C4_failures_do_not_persist (pd : Option (Option String))
    (upstream : Except String AiResult) (persistOk : Bool) (newId : String) (now : ℕ)
    (store : List ScanRecord) (file : ImageFile) (err : String) (hpd : pd ≠ some none) :
    ((diagnoseHandler ⟨none, pd⟩ upstream persistOk newId now store).status = 400 ∧
     (diagnoseHandler ⟨none, pd⟩ upstream persistOk newId now store).store = store ∧
     (diagnoseHandler ⟨none, pd⟩ upstream persistOk newId now store).upstreamCalled = false) ∧
    ((diagnoseHandler ⟨some file, pd⟩ (Except.error err) persistOk newId now store).status = 502 ∧
     (diagnoseHandler ⟨some file, pd⟩ (Except.error err) persistOk newId now store).store
         = store ∧
     (diagnoseHandler ⟨some file, pd⟩ (Except.error err) persistOk newId now store).upstreamCalled
         = true) := by
  refine ⟨⟨rfl, rfl, rfl⟩, ?_⟩
  match pd with
  | none => exact ⟨rfl, rfl, rfl⟩
  | some none => exact absurd rfl hpd
  | some (some p) => exact ⟨rfl, rfl, rfl⟩

/-- Witness for C4 at a concrete request. -/
theorem C4_failures_do_not_persist_witness :
    (none : Option (Option String)) ≠ some none ∧
    ((diagnoseHandler ⟨none, none⟩ (Except.ok demoAi) true demoId 5 [demoRecord 1]).status = 400 ∧
     (diagnoseHandler ⟨none, none⟩ (Except.ok demoAi) true demoId 5 [demoRecord 1]).store
         = [demoRecord 1] ∧
     (diagnoseHandler ⟨none, none⟩ (Except.ok demoAi) true demoId 5
         [demoRecord 1]).upstreamCalled = false) ∧
    ((diagnoseHandler ⟨some demoFile, none⟩ (Except.error ("timeout")) true demoId 5
         [demoRecord 1]).status = 502 ∧
     (diagnoseHandler ⟨some demoFile, none⟩ (Except.error ("timeout")) true demoId 5
         [demoRecord 1]).store = [demoRecord 1] ∧
     (diagnoseHandler ⟨some demoFile, none⟩ (Except.error ("timeout")) true demoId 5
         [demoRecord 1]).upstreamCalled = true) := by
  refine ⟨by decide, ?_⟩
  exact C4_failures_do_not_persist none (Except.ok demoAi) true demoId 5 [demoRecord 1]
    demoFile ("timeout") (by decide)

/-- C10: on a successful diagnose whose upstream body omits severity, the
persisted record copies the absent upstream severity verbatim while the
response carries the severity derived from the fixed class-to-tier table,
so the stored severity is absent and differs from the returned one. -/
theorem C10_record_severity_verbatim (file : ImageFile) (ai : AiResult) (newId : String)
    (now : ℕ) (store : List ScanRecord) (hsev : ai.severity = none) :
    (diagnoseHandler ⟨some file, none⟩ (Except.ok ai) true newId now store).store
        = store ++ [mkRecord ai emptyPatientJson file newId now] ∧
    (mkRecord ai emptyPatientJson file newId now).result.severity = none ∧
    (diagnoseHandler ⟨some file, none⟩ (Except.ok ai) true newId now store).body
        = DiagnoseBody.success (mkResponse ai newId now) ∧
    (mkResponse ai newId now).severity = inferSeverity ai.predicted_class ∧
    (mkRecord ai emptyPatientJson file newId now).result.severity
        ≠ some ((mkResponse ai newId now).severity) := by
  refine ⟨rfl, hsev, rfl, ?_, ?_⟩
  · show jsOr ai.severity (inferSeverity ai.predicted_class) = inferSeverity ai.predicted_class
    rw [hsev]
    rfl
  · show ai.severity ≠ some ((mkResponse ai newId now).severity)
    rw [hsev]
    exact fun h => Option.noConfusion h

/-- Witness for C10 at a concrete request. -/
theorem C10_record_severity_verbatim_witness :
    demoAi.severity = none ∧
    ((diagnoseHandler ⟨some demoFile, none⟩ (Except.ok demoAi) true demoId 5 []).store
        = [] ++ [mkRecord demoAi emptyPatientJson demoFile demoId 5] ∧
     (mkRecord demoAi emptyPatientJson demoFile demoId 5).result.severity = none ∧
     (diagnoseHandler ⟨some demoFile, none⟩ (Except.ok demoAi) true demoId 5 []).body
        = DiagnoseBody.success (mkResponse demoAi demoId 5) ∧
     (mkResponse demoAi demoId 5).severity = inferSeverity demoAi.predicted_class ∧
     (mkRecord demoAi emptyPatientJson demoFile demoId 5).result.severity
        ≠ some ((mkResponse demoAi demoId 5).severity)) := by
  exact ⟨rfl, C10_record_severity_verbatim demoFile demoAi demoId 5 [] rfl⟩

/-- C2: when the upstream body carries no severity, the responded severity
follows the fixed deterministic table on the closed class set: Normal maps
to Low, the high-risk classes Tuberculosis and COVID-19 map to High, and
every other canonical class maps to Medium. -/
theorem C2_severity_mapping (ai : AiResult) (file : ImageFile) (persistOk : Bool)
    (newId : String) (now : ℕ) (store : List ScanRecord)
    (hsev : ai.severity = none) (hcls : ai.predicted_class ∈ canonicalClasses) :
    (diagnoseHandler ⟨some file, none⟩ (Except.ok ai) persistOk newId now store).body
        = DiagnoseBody.success (mkResponse ai newId now) ∧
    (ai.predicted_class = "Normal" → (mkResponse ai newId now).severity = "Low") ∧
    ((ai.predicted_class = "Tuberculosis" ∨ ai.predicted_class = "COVID-19") →
        (mkResponse ai newId now).severity = "High") ∧
    ((ai.predicted_class ≠ "Normal" ∧ ai.predicted_class ≠ "Tuberculosis" ∧
        ai.predicted_class ≠ "COVID-19") →
        (mkResponse ai newId now).severity = "Medium") := by
  have hval : (mkResponse ai newId now).severity = inferSeverity ai.predicted_class := by
    show jsOr ai.severity (inferSeverity ai.predicted_class) = inferSeverity ai.predicted_class
    rw [hsev]
    rfl
  simp only [canonicalClasses, List.mem_cons, List.not_mem_nil, or_false] at hcls
  refine ⟨rfl, ?_, ?_, ?_⟩
  · intro h
    rw [hval, h]
    decide
  · rintro (h | h) <;> rw [hval, h] <;> decide
  · rintro ⟨h1, h2, h3⟩
    rw [hval]
    rcases hcls with h | h | h | h | h
    · exact absurd h h1
    · rw [h]; decide
    · exact absurd h h3
    · rw [h]; decide
    · exact absurd h h2

/-- Witness for C2 at a concrete upstream body. -/
theorem C2_severity_mapping_witness :
    demoAi.severity = none ∧ demoAi.predicted_class ∈ canonicalClasses ∧
    ((diagnoseHandler ⟨some demoFile, none⟩ (Except.ok demoAi) true demoId 5 []).body
        = DiagnoseBody.success (mkResponse demoAi demoId 5) ∧
     (demoAi.predicted_class = "Normal" → (mkResponse demoAi demoId 5).severity = "Low") ∧
     ((demoAi.predicted_class = "Tuberculosis" ∨ demoAi.predicted_class = "COVID-19") →
        (mkResponse demoAi demoId 5).severity = "High") ∧
     ((demoAi.predicted_class ≠ "Normal" ∧ demoAi.predicted_class ≠ "Tuberculosis" ∧
        demoAi.predicted_class ≠ "COVID-19") →
        (mkResponse demoAi demoId 5).severity = "Medium")) := by
  refine ⟨rfl, by decide, ?_⟩
  exact C2_severity_mapping demoAi demoFile true demoId 5 [] rfl (by decide)

/-- C5: evaluation of the source at the failing trace.  After resetDiagnosis
clears the session, the unconditional completion closure of the delayed
orchestration call still stores the stale result and navigates to the
results route; no generation guard suppresses it. -/
theorem C5_stale_completion_overwrites :
    (resetDiagnosis processingSession).diagnosisResult = none ∧
    (completeDiagnosis staleResult (resetDiagnosis processingSession)).diagnosisResult
        = some staleResult ∧
    (completeDiagnosis staleResult (resetDiagnosis processingSession)).route
        = Route.results := by
  exact ⟨rfl, rfl, rfl⟩

/-- C6 counterexample: deleting an unknown identifier replies HTTP 200 with
success true, not the 404 the claim states, while leaving the store
unchanged. -/
theorem C6_counterexample_no_404 :
    (deleteHandler ghostId ([] : List ScanRecord)).status = 200 ∧
    (deleteHandler ghostId ([] : List ScanRecord)).status ≠ 404 ∧
    (deleteHandler ghostId ([] : List ScanRecord)).success = true ∧
    (deleteHandler ghostId ([] : List ScanRecord)).store = [] := by
  exact ⟨rfl, by decide, rfl, rfl⟩

lemma procInv_step (s : ProcState) (e : ProcEvent) (h : procInv s) : procInv (stepProc s e) := by
  obtain ⟨h1, h2, h3⟩ := h
  cases e with
  | tick =>
      simp only [stepProc]
      split
      · exact ⟨h1, h2, h3⟩
      next hs =>
        refine ⟨fun hsucc => absurd (h1 hsucc) hs, fun _ => min_le_right _ _, fun hp => ?_⟩
        have hle : (100 : ℚ) ≤ 90 := by
          rw [← hp]
          exact min_le_right _ _
        norm_num at hle
  | resolveOk =>
      simp only [stepProc]
      split
      · exact ⟨h1, h2, h3⟩
      · exact ⟨fun _ => rfl, fun hc => Bool.noConfusion hc, fun _ => rfl⟩
  | resolveErr =>
      simp only [stepProc]
      split
      · exact ⟨h1, h2, h3⟩
      · exact ⟨fun _ => rfl, h2, h3⟩

lemma procInv_foldl (evs : List ProcEvent) (s : ProcState) (h : procInv s) :
    procInv (evs.foldl stepProc s) := by
  induction evs generalizing s with
  | nil => exact h
  | cons e evs ih => exact ih _ (procInv_step s e h)

/-- C9: on every event sequence of the processing screen, the timer-driven
progress stays at or below 90 as long as the real call has not succeeded,
and a displayed 100 implies the real call resolved successfully. -/
theorem C9_progress_cap (evs : List ProcEvent) :
    ((runProc evs).succeeded = false → (runProc evs).progress ≤ 90) ∧
    ((runProc evs).progress = 100 → (runProc evs).succeeded = true) := by
  have h := procInv_foldl evs initProc
    ⟨fun hc => Bool.noConfusion hc, fun _ => by show (0 : ℚ) ≤ 90; norm_num,
     fun hc => absurd (show (0 : ℚ) = 100 from hc) (by norm_num)⟩
  exact ⟨h.2.1, h.2.2⟩

lemma eraseP_scanId_ne (id : String) (s : List ScanRecord)
    (hnd : (s.map (fun r => r.scanId)).Nodup) :
    ∀ r ∈ s.eraseP (fun r => r.scanId == id), r.scanId ≠ id := by
  induction s with
  | nil => intro r hr; simp at hr
  | cons x s ih =>
      simp only [List.map_cons, List.nodup_cons] at hnd
      obtain ⟨hx, hs⟩ := hnd
      by_cases h : x.scanId = id
      · rw [List.eraseP_cons_of_pos (by simp [h])]
        intro r hr hcontra
        exact hx (List.mem_map.mpr ⟨r, hr, by rw [hcontra, h]⟩)
      · rw [List.eraseP_cons_of_neg (by simp [h])]
        intro r hr
        rcases List.mem_cons.mp hr with rfl | hr2
        · exact h
        · exact ih hs r hr2

lemma mem_historyHandler_records (q : HistoryQuery) (s : List ScanRecord) (r : ScanRecord)
    (hr : r ∈ (historyHandler q s).records) : r ∈ s := by
  have h1 : r ∈ ((s.filter (matchesFilter q)).insertionSort newerEq).drop
      ((max 1 (q.page.getD 1) - 1) * min 100 (q.limit.getD 20)) :=
    (List.take_sublist _ _).subset hr
  have h2 : r ∈ (s.filter (matchesFilter q)).insertionSort newerEq :=
    (List.drop_sublist _ _).subset h1
  rw [List.mem_insertionSort] at h2
  exact List.mem_of_mem_filter h2

/-- C6 amended: deleting an existing scan identifier removes the record from
the store and hence from every subsequent find result; deleting an unknown
identifier leaves the store unchanged and still replies 200 with success
true; repeating the delete is an idempotent no-op. -/
theorem C6_delete_semantics (id : String) (s : List ScanRecord)
    (hnd : (s.map (fun r => r.scanId)).Nodup) :
    (∀ r ∈ (deleteHandler id s).store, r.scanId ≠ id) ∧
    (∀ q r, r ∈ (historyHandler q (deleteHandler id s).store).records → r.scanId ≠ id) ∧
    ((∀ r ∈ s, r.scanId ≠ id) → (deleteHandler id s).store = s) ∧
    (deleteHandler id s).status = 200 ∧
    (deleteHandler id s).success = true ∧
    (deleteHandler id ((deleteHandler id s).store)).store = (deleteHandler id s).store := by
  have h1 := eraseP_scanId_ne id s hnd
  refine ⟨h1, ?_, ?_, rfl, rfl, ?_⟩
  · intro q r hr
    exact h1 r (mem_historyHandler_records q _ r hr)
  · intro hall
    exact List.eraseP_of_forall_not (fun a ha => by simp [hall a ha])
  · exact List.eraseP_of_forall_not (fun a ha => by simp [h1 a ha])

/-- Witness for C6 at a concrete two-record store. -/
theorem C6_delete_semantics_witness :
    (([demoRecord 1, demoRecord 2] : List ScanRecord).map (fun r => r.scanId)).Nodup ∧
    ((∀ r ∈ (deleteHandler ("r1") [demoRecord 1, demoRecord 2]).store, r.scanId ≠ ("r1")) ∧
     (∀ q r, r ∈ (historyHandler q
          (deleteHandler ("r1") [demoRecord 1, demoRecord 2]).store).records →
        r.scanId ≠ ("r1")) ∧
     ((∀ r ∈ ([demoRecord 1, demoRecord 2] : List ScanRecord), r.scanId ≠ ("r1")) →
        (deleteHandler ("r1") [demoRecord 1, demoRecord 2]).store
          = [demoRecord 1, demoRecord 2]) ∧
     (deleteHandler ("r1") [demoRecord 1, demoRecord 2]).status = 200 ∧
     (deleteHandler ("r1") [demoRecord 1, demoRecord 2]).success = true ∧
     (deleteHandler ("r1")
          ((deleteHandler ("r1") [demoRecord 1, demoRecord 2]).store)).store
        = (deleteHandler ("r1") [demoRecord 1, demoRecord 2]).store) := by
  exact ⟨by decide, C6_delete_semantics ("r1") [demoRecord 1, demoRecord 2] (by decide)⟩

lemma filter_class_length_eq_count (s : List ScanRecord) (c : String) :
    (s.filter (fun r => r.result.predictedClass == c)).length
      = (s.map (fun r => r.result.predictedClass)).count c := by
  induction s with
  | nil => rfl
  | cons x s ih =>
      by_cases h : x.result.predictedClass = c
      · simp [List.count_cons, h, ih]
      · simp [List.count_cons, h, ih]

lemma aggregate_counts_sum (s : List ScanRecord) :
    ((aggregateByClass s).map (fun g => g.count)).sum = s.length := by
  have hperm := ((List.perm_insertionSort moreFrequent
      ((s.map (fun r => r.result.predictedClass)).dedup.map (fun c =>
        ({ cls := c
           count := (s.filter (fun r => r.result.predictedClass == c)).length
           avgConfidence :=
             ((s.filter (fun r => r.result.predictedClass == c)).map
                 (fun r => r.result.confidence)).sum
               / ((s.filter (fun r => r.result.predictedClass == c)).length : ℚ)
         } : ClassGroup)))).map (fun g => g.count)).sum_eq
  unfold aggregateByClass
  rw [hperm, List.map_map]
  have hcongr : ((s.map (fun r => r.result.predictedClass)).dedup.map
        ((fun g : ClassGroup => g.count) ∘ (fun c =>
          ({ cls := c
             count := (s.filter (fun r => r.result.predictedClass == c)).length
             avgConfidence :=
               ((s.filter (fun r => r.result.predictedClass == c)).map
                   (fun r => r.result.confidence)).sum
                 / ((s.filter (fun r => r.result.predictedClass == c)).length : ℚ)
           } : ClassGroup))))
      = (s.map (fun r => r.result.predictedClass)).dedup.map
          (fun c => (s.map (fun r => r.result.predictedClass)).count c) := by
    apply List.map_congr_left
    intro c _
    exact filter_class_length_eq_count s c
  rw [hcongr, List.sum_map_count_dedup_eq_length, List.length_map]

/-- C8: the analytics aggregation groups records by predicted class, each
group carrying the count and the mean confidence of the matching records;
the groups are ordered by descending count, and the counts sum to the total
record count of an unfiltered history query. -/
theorem C8_aggregate_by_class (s : List ScanRecord) :
    ((aggregateByClass s).map (fun g => g.count)).sum = s.length ∧
    ((aggregateByClass s).map (fun g => g.count)).sum
        = (historyHandler ⟨none, none, none, none, none⟩ s).total ∧
    List.Sorted moreFrequent (aggregateByClass s) ∧
    (∀ g ∈ aggregateByClass s,
        g.cls ∈ s.map (fun r => r.result.predictedClass) ∧
        g.count = (s.filter (fun r => r.result.predictedClass == g.cls)).length ∧
        g.avgConfidence = ((s.filter (fun r => r.result.predictedClass == g.cls)).map
            (fun r => r.result.confidence)).sum
          / ((s.filter (fun r => r.result.predictedClass == g.cls)).length : ℚ)) := by
  refine ⟨aggregate_counts_sum s, ?_, List.sorted_insertionSort _ _, ?_⟩
  · rw [aggregate_counts_sum s]
    have hfil : s.filter (matchesFilter ⟨none, none, none, none, none⟩) = s :=
      List.filter_eq_self.mpr (fun a _ => rfl)
    show s.length = (s.filter (matchesFilter ⟨none, none, none, none, none⟩)).length
    rw [hfil]
  · intro g hg
    unfold aggregateByClass at hg
    rw [List.mem_insertionSort] at hg
    obtain ⟨c, hc, rfl⟩ := List.mem_map.mp hg
    exact ⟨List.mem_dedup.mp hc, rfl, rfl⟩

lemma ceilDiv_mul_ge (t L : ℕ) (hL : 0 < L) : t ≤ ((t + L - 1) / L) * L := by
  have h := (Nat.div_le_iff_le_mul_add_pred hL).mp (le_refl ((t + L - 1) / L))
  set d := (t + L - 1) / L with hd
  rw [Nat.mul_comm]
  have h3 : t + L - 1 = t + (L - 1) := by omega
  rw [h3] at h
  exact Nat.le_of_add_le_add_right h

lemma ceilDiv_least (t L m : ℕ) (hL : 0 < L) (h : t ≤ m * L) : (t + L - 1) / L ≤ m := by
  apply (Nat.div_le_iff_le_mul_add_pred hL).mpr
  have h2 : t + (L - 1) ≤ m * L + (L - 1) := Nat.add_le_add_right h _
  have h3 : t + L - 1 = t + (L - 1) := by omega
  rw [h3, Nat.mul_comm L m]
  exact h2

/-- C7 counterexample: the database sort contract does not break ties by
insertion order.  For the store holding the two distinct records tieA then
tieB with equal creation timestamps, the reversed list is also a valid
result of the sort on createdAt descending, and the unfiltered history
query passes this store to that sort unchanged. -/
theorem C7_counterexample_ties_unspecified :
    tieA.createdAt = tieB.createdAt ∧
    tieA ≠ tieB ∧
    [tieA, tieB].filter (matchesFilter ⟨none, none, none, none, none⟩) = [tieA, tieB] ∧
    mongoSortResult [tieA, tieB] [tieB, tieA] ∧
    [tieB, tieA] ≠ [tieA, tieB] := by
  refine ⟨rfl, by decide, rfl, ⟨List.Perm.swap tieA tieB [], ?_⟩, by decide⟩
  exact List.sorted_cons.mpr
    ⟨fun b hb => by rcases List.mem_singleton.mp hb with rfl; exact le_refl tieB.createdAt,
     List.sorted_singleton tieA⟩

lemma sorted_strict_of_sorted_nodup (out : List ScanRecord)
    (hs : List.Sorted newerEq out)
    (hnd : (out.map (fun r => r.createdAt)).Nodup) :
    List.Sorted strictNewer out := by
  have hne : List.Pairwise (fun a b : ScanRecord => a.createdAt ≠ b.createdAt) out :=
    List.pairwise_map.mp hnd
  exact (hs.and hne).imp (fun h => lt_of_le_of_ne h.1 (Ne.symm h.2))

lemma sorted_perm_unique (l out1 out2 : List ScanRecord)
    (hnd : (l.map (fun r => r.createdAt)).Nodup)
    (h1 : out1.Perm l) (h2 : out2.Perm l)
    (hs1 : List.Sorted newerEq out1) (hs2 : List.Sorted newerEq out2) :
    out1 = out2 := by
  have hnd1 : (out1.map (fun r => r.createdAt)).Nodup :=
    ((h1.map (fun r => r.createdAt)).nodup_iff).mpr hnd
  have hnd2 : (out2.map (fun r => r.createdAt)).Nodup :=
    ((h2.map (fun r => r.createdAt)).nodup_iff).mpr hnd
  exact List.eq_of_perm_of_sorted (h1.trans h2.symm)
    (sorted_strict_of_sorted_nodup out1 hs1 hnd1)
    (sorted_strict_of_sorted_nodup out2 hs2 hnd2)

/-- C7 amended: history pagination is 1-indexed with the page size clamped
at 100, the reported pages are the ceiling of total over limit, and the
returned page is sorted newest first; the order among equal creation
timestamps is unspecified, the model sort being one valid result of the
database sort.  Page 2 of size 10 over the 25 records with distinct
timestamps returns the records ranked 11 to 20 newest first under every
valid result of the sort, and in particular in the model. -/
theorem C7_history_pagination (q : HistoryQuery) (s : List ScanRecord)
    (hl : 0 < (historyHandler q s).limit) :
    1 ≤ (historyHandler q s).page ∧
    (historyHandler q s).limit ≤ 100 ∧
    (historyHandler q s).total ≤ (historyHandler q s).pages * (historyHandler q s).limit ∧
    (∀ m : ℕ, (historyHandler q s).total ≤ m * (historyHandler q s).limit →
        (historyHandler q s).pages ≤ m) ∧
    List.Sorted newerEq (historyHandler q s).records ∧
    mongoSortResult (s.filter (matchesFilter q))
        ((s.filter (matchesFilter q)).insertionSort newerEq) ∧
    (∀ out, mongoSortResult
          (demoStore.filter (matchesFilter ⟨some 2, some 10, none, none, none⟩)) out →
        ((out.drop 10).take 10).map (fun r => r.createdAt)
          = [15, 14, 13, 12, 11, 10, 9, 8, 7, 6]) ∧
    (historyHandler ⟨some 2, some 10, none, none, none⟩ demoStore).records.map
        (fun r => r.createdAt) = [15, 14, 13, 12, 11, 10, 9, 8, 7, 6] := by
  have hL : 0 < min 100 (q.limit.getD 20) := hl
  refine ⟨le_max_left 1 _, min_le_left 100 _, ?_, ?_, ?_, ?_, ?_, ?_⟩
  · exact ceilDiv_mul_ge (s.filter (matchesFilter q)).length (min 100 (q.limit.getD 20)) hL
  · intro m hm
    exact ceilDiv_least (s.filter (matchesFilter q)).length (min 100 (q.limit.getD 20)) m hL hm
  · have hs := List.sorted_insertionSort newerEq (s.filter (matchesFilter q))
    have hsub : List.Sublist (historyHandler q s).records
        ((s.filter (matchesFilter q)).insertionSort newerEq) :=
      (List.take_sublist _ _).trans (List.drop_sublist _ _)
    exact List.Pairwise.sublist hsub hs
  · exact ⟨List.perm_insertionSort newerEq _, List.sorted_insertionSort newerEq _⟩
  · intro out hout
    have hmodel : mongoSortResult
        (demoStore.filter (matchesFilter ⟨some 2, some 10, none, none, none⟩))
        ((demoStore.filter
            (matchesFilter ⟨some 2, some 10, none, none, none⟩)).insertionSort newerEq) :=
      ⟨List.perm_insertionSort newerEq _, List.sorted_insertionSort newerEq _⟩
    have hnd : ((demoStore.filter
        (matchesFilter ⟨some 2, some 10, none, none, none⟩)).map
          (fun r => r.createdAt)).Nodup := by decide
    have huniq := sorted_perm_unique _ out _ hnd hout.1 hmodel.1 hout.2 hmodel.2
    rw [huniq]
    rfl
  · rfl

/-- Witness for C7 at the concrete 25-record scenario. -/
theorem C7_history_pagination_witness :
    0 < (historyHandler ⟨some 2, some 10, none, none, none⟩ demoStore).limit ∧
    1 ≤ (historyHandler ⟨some 2, some 10, none, none, none⟩ demoStore).page ∧
    (historyHandler ⟨some 2, some 10, none, none, none⟩ demoStore).records.map
        (fun r => r.createdAt) = [15, 14, 13, 12, 11, 10, 9, 8, 7, 6] := by
  have h := C7_history_pagination ⟨some 2, some 10, none, none, none⟩ demoStore (by decide)
  exact ⟨by decide, h.1, h.2.2.2.2.2.2.2⟩

lemma argmaxAux_le_snd (c : String) (v : ℚ) (rest : List (String × ℚ)) :
    v ≤ (argmaxAux c v rest).2 := by
  induction rest generalizing c v with
  | nil => exact le_refl v
  | cons q rest ih =>
      obtain ⟨c2, v2⟩ := q
      simp only [argmaxAux]
      split_ifs with h
      · exact le_trans (le_of_lt h) (ih c2 v2)
      · exact ih c v

lemma argmaxAux_spec (rest : List (String × ℚ)) (c : String) (v : ℚ) :
    ∃ l1 l2, (c, v) :: rest = l1 ++ argmaxAux c v rest :: l2 ∧
      (∀ p ∈ l1, p.2 < (argmaxAux c v rest).2) ∧
      (∀ p ∈ l2, p.2 ≤ (argmaxAux c v rest).2) := by
  induction rest generalizing c v with
  | nil =>
      refine ⟨[], [], rfl, ?_, ?_⟩ <;> intro p hp <;> simp at hp
  | cons q rest ih =>
      obtain ⟨c2, v2⟩ := q
      by_cases h : v < v2
      · obtain ⟨l1, l2, heq, hlt, hle⟩ := ih c2 v2
        have harr : argmaxAux c v ((c2, v2) :: rest) = argmaxAux c2 v2 rest := by
          simp only [argmaxAux, if_pos h]
        rw [harr]
        refine ⟨(c, v) :: l1, l2, ?_, ?_, hle⟩
        · rw [List.cons_append, ← heq]
        · intro p hp
          rcases List.mem_cons.mp hp with rfl | hp2
          · exact lt_of_lt_of_le h (argmaxAux_le_snd c2 v2 rest)
          · exact hlt p hp2
      · have hv2 : v2 ≤ v := le_of_not_lt h
        obtain ⟨l1, l2, heq, hlt, hle⟩ := ih c v
        have harr : argmaxAux c v ((c2, v2) :: rest) = argmaxAux c v rest := by
          simp only [argmaxAux, if_neg h]
        rw [harr]
        cases l1 with
        | nil =>
            rw [List.nil_append] at heq
            obtain ⟨h1, h2⟩ := List.cons.inj heq
            refine ⟨[], (c2, v2) :: l2, ?_, ?_, ?_⟩
            · rw [List.nil_append, ← h1, ← h2]
            · intro p hp
              simp at hp
            · intro p hp
              rcases List.mem_cons.mp hp with rfl | hp2
              · rw [← h1]
                exact hv2
              · exact hle p hp2
        | cons q1 l1t =>
            rw [List.cons_append] at heq
            obtain ⟨h1, h2⟩ := List.cons.inj heq
            refine ⟨(c, v) :: (c2, v2) :: l1t, l2, ?_, ?_, hle⟩
            · rw [List.cons_append, List.cons_append, ← h2]
            · have hcv := hlt q1 (List.mem_cons_self q1 l1t)
              rw [← h1] at hcv
              intro p hp
              rcases List.mem_cons.mp hp with rfl | hp2
              · exact hcv
              · rcases List.mem_cons.mp hp2 with rfl | hp3
                · exact lt_of_le_of_lt hv2 hcv
                · exact hlt p (List.mem_cons_of_mem q1 hp3)

/-- C1: against the spec-modelled Inference Gateway, a successful diagnose
returns a response whose predicted class is a key of the probability
distribution carrying its maximum value, and it is the first such key in
canonical ordering: every key listed before it carries a strictly smaller
value. -/
theorem C1_predicted_class_argmax (file : ImageFile) (probs : List (String × ℚ))
    (confidence : ℚ) (regions recs : List String) (demo : Bool) (persistOk : Bool)
    (newId : String) (now : ℕ) (store : List ScanRecord) (hne : probs ≠ []) :
    ∃ resp l1 l2 v,
      (diagnoseHandler ⟨some file, none⟩
          (Except.ok (gatewayResult probs confidence none regions recs demo))
          persistOk newId now store).body = DiagnoseBody.success resp ∧
      resp.probabilities = probs ∧
      probs = l1 ++ (resp.predicted_class, v) :: l2 ∧
      (∀ p ∈ l1, p.2 < v) ∧
      (∀ p ∈ probs, p.2 ≤ v) := by
  match probs, hne with
  | (c, v0) :: rest, _ =>
    obtain ⟨l1, l2, heq, hlt, hle⟩ := argmaxAux_spec rest c v0
    refine ⟨mkResponse (gatewayResult ((c, v0) :: rest) confidence none regions recs demo)
        newId now, l1, l2, (argmaxAux c v0 rest).2, rfl, rfl, ?_, hlt, ?_⟩
    · exact heq
    · intro p hp
      rw [heq] at hp
      rcases List.mem_append.mp hp with h1 | h2
      · exact le_of_lt (hlt p h1)
      · rcases List.mem_cons.mp h2 with rfl | h3
        · exact le_refl _
        · exact hle p h3

/-- Witness for C1 at a concrete three-class distribution. -/
theorem C1_predicted_class_argmax_witness :
    demoProbs ≠ [] ∧
    (∃ resp l1 l2 v,
      (diagnoseHandler ⟨some demoFile, none⟩
          (Except.ok (gatewayResult demoProbs (1/2) none [] [] false))
          true demoId 5 []).body = DiagnoseBody.success resp ∧
      resp.probabilities = demoProbs ∧
      demoProbs = l1 ++ (resp.predicted_class, v) :: l2 ∧
      (∀ p ∈ l1, p.2 < v) ∧
      (∀ p ∈ demoProbs, p.2 ≤ v)) := by
  exact ⟨by decide,
    C1_predicted_class_argmax demoFile demoProbs (1/2) [] [] false true demoId 5 [] (by decide)⟩

end PulmoScan
